import Mathlib

/-!
Verification of the bgg-scraper batch-ingestion pipeline (src/index.ts).

The TypeScript source is shallowly embedded: JS numbers are modelled as
`ℕ`, `ℤ` or `ℚ` as appropriate (arithmetic is exact), `undefined`/`null`
become `Option`, arrays become `List`, and `Math.round` becomes `jsRound`
(JavaScript rounds half toward +∞, i.e. `⌊x + 1/2⌋`).  The external
HTML-entity decoder (`decode` from the html-entities package) is a
black-box capability and is passed in as a `String → String` parameter.
-/

namespace BggScraper

/-- Function `nullGuard` from src/index.ts: return `defaultValue` when the value is
`undefined`/`null`, otherwise the value itself. -/
def nullGuard {T : Type} (value : Option T) (defaultValue : T) : T :=
  match value with
  | none => defaultValue
  | some v => v

/-- JavaScript `Math.round`: round half toward positive infinity. -/
def jsRound (q : ℚ) : ℤ := ⌊q + 1/2⌋

/-- One entry of a poll result group's `resultItemList`
(BggPollResultItemDto of the boardgamegeekclient library): an option
label (`value`) and its vote tally (`numvotes`, possibly absent). -/
structure BggPollResultItemDto where
  value : String
  numvotes : Option ℕ
deriving DecidableEq, Repr

/-- One result group of a poll (BggPollResultDto): an optional
`numplayers` bucket label and the per-option vote list. -/
structure BggPollResultDto where
  numplayers : Option String
  resultItemList : List BggPollResultItemDto
deriving DecidableEq, Repr

/-- A named poll (BggPollDto) with total vote count and result groups.
`totalvotes` is a string in the wire format; the code parses it with a
`"0"` default, so it is modelled as `Option ℕ` read through `nullGuard`. -/
structure BggPollDto where
  name : String
  totalvotes : Option ℕ
  results : Option (List BggPollResultDto)
deriving DecidableEq, Repr

/-- Interface `Recommendation` from src/index.ts: `{value, score}`.  The values
pushed by the two poll parsers are the string bucket labels; the score is
the integer result of `Math.round`. -/
structure Recommendation where
  value : String
  score : ℤ
deriving DecidableEq, Repr

/-- Interface `PollResult` from src/index.ts: the accumulator of the player-count
reduce, `{score, votes}`. -/
structure PollResult where
  score : ℚ
  votes : ℕ
deriving DecidableEq, Repr

/-- Function `parsePlayerAgePoll` from src/index.ts: absent when there are no
result groups, when the parsed `totalvotes` is 0, or when every vote entry
is skipped; otherwise pushes `{value, Math.round((numOfVotes/totalVotes)*100)}`
for each entry with a non-zero vote count, in encounter order. -/
def parsePlayerAgePoll (pollResult : BggPollDto) : Option (List Recommendation) :=
  match pollResult.results with
  | none => none
  | some results =>
    if results.length = 0 then none
    else
      let totalVotes := nullGuard pollResult.totalvotes 0
      if totalVotes = 0 then none
      else
        let result := results.foldl (fun result item =>
          item.resultItemList.foldl (fun result ageVote =>
            let numOfVotes := nullGuard ageVote.numvotes 0
            if numOfVotes = 0 then result
            else result ++
              [⟨ageVote.value, jsRound ((numOfVotes : ℚ) / (totalVotes : ℚ) * 100)⟩])
            result) ([] : List Recommendation)
        if result.length = 0 then none else some result

/-- Function `calculateRecommendedAgeScore` from src/index.ts: find the poll named
`"suggested_playerage"` and hand it to `parsePlayerAgePoll`. -/
def calculateRecommendedAgeScore (polls : Option (List BggPollDto)) :
    Option (List Recommendation) :=
  match polls.bind (List.find? fun p => p.name == "suggested_playerage") with
  | none => none
  | some poll => parsePlayerAgePoll poll

/-- Function `parseNumPlayersPoll` from src/index.ts: per result group with a
present `numplayers` bucket, reduce the option list with weights
Best = +1, Recommended = +0.5, Not Recommended = −0.5 (votes accumulate
for all three), then push `{numplayers, max(0, Math.round((score/votes)*100))}`
when the group's vote count is non-zero. -/
def parseNumPlayersPoll (pollResult : BggPollDto) : Option (List Recommendation) :=
  match pollResult.results with
  | none => none
  | some results =>
    if results.length = 0 then none
    else
      let result := results.foldl (fun result item =>
        match item.numplayers with
        | none => result
        | some numplayers =>
          let summary := item.resultItemList.foldl (fun (acc : PollResult) it =>
            let numOfVotes : ℕ := nullGuard it.numvotes 0
            if numOfVotes = 0 then acc
            else if it.value = "Best" then
              { score := acc.score + (numOfVotes : ℚ), votes := acc.votes + numOfVotes }
            else if it.value = "Recommended" then
              { score := acc.score + (1/2 : ℚ) * (numOfVotes : ℚ), votes := acc.votes + numOfVotes }
            else if it.value = "Not Recommended" then
              { score := acc.score - (1/2 : ℚ) * (numOfVotes : ℚ), votes := acc.votes + numOfVotes }
            else acc) ⟨0, 0⟩
          if summary.votes ≠ 0 then
            result ++
              [⟨numplayers, max 0 (jsRound (summary.score / (summary.votes : ℚ) * 100))⟩]
          else result) ([] : List Recommendation)
      if result.length = 0 then none else some result

/-- Function `calculateRecommendedPlayerCountScore` from src/index.ts: find the
poll named `"suggested_numplayers"` and hand it to `parseNumPlayersPoll`. -/
def calculateRecommendedPlayerCountScore (polls : Option (List BggPollDto)) :
    Option (List Recommendation) :=
  match polls.bind (List.find? fun p => p.name == "suggested_numplayers") with
  | none => none
  | some poll => parseNumPlayersPoll poll

/-- Function `getTopRecommendation` from src/index.ts: absent on an absent/empty
list or when every score is 0; otherwise `reduce` with
`item.score > acc.score ? item : acc` seeded with the first element. -/
def getTopRecommendation (recommendations : Option (List Recommendation)) :
    Option Recommendation :=
  match recommendations with
  | none => none
  | some [] => none
  | some (r0 :: rest) =>
    if (r0 :: rest).all (fun item => item.score == 0) then none
    else some ((r0 :: rest).foldl
      (fun acc item => if acc.score < item.score then item else acc) r0)

/-- Tag link of a thing (BggLinkDto): discriminator `type` and label `value`. -/
structure BggLinkDto where
  type : String
  value : String
deriving DecidableEq, Repr

/-- Ratings block of a thing's statistics (BggRatingsDto). -/
structure BggRatingsDto where
  average : ℚ
  bayesaverage : ℚ
  stddev : ℚ
  averageweight : Option ℚ
deriving DecidableEq

/-- Statistics block of a thing (BggStatisticsDto). -/
structure BggStatisticsDto where
  ratings : BggRatingsDto
deriving DecidableEq

/-- The raw fetched item (BggThingDto) as consumed by `parseGame`. -/
structure BggThingDto where
  id : ℕ
  thumbnail : String
  image : String
  name : String
  description : String
  yearpublished : ℤ
  minage : ℕ
  minplayers : ℕ
  maxplayers : ℕ
  playingtime : ℕ
  minplaytime : ℕ
  maxplaytime : ℕ
  statistics : BggStatisticsDto
  links : Option (List BggLinkDto)
  polls : Option (List BggPollDto)
deriving DecidableEq

/-- Field block `Game.rating` from src/index.ts. -/
structure GameRating where
  average : ℚ
  bayesian : ℚ
  stddev : ℚ
deriving DecidableEq

/-- Field block `Game.playTimeMinutes` from src/index.ts. -/
structure GamePlayTime where
  rated : ℕ
  min : ℕ
  max : ℕ
deriving DecidableEq

/-- Field block `Game.age` from src/index.ts. -/
structure GameAge where
  rated : ℕ
  suggested : Option String
  pollResults : Option (List Recommendation)
deriving DecidableEq

/-- Field block `Game.playerCount` from src/index.ts. -/
structure GamePlayerCount where
  min : ℕ
  max : ℕ
  suggested : Option String
  pollResults : Option (List Recommendation)
deriving DecidableEq

/-- The normalized output record (`Game` interface of src/index.ts). -/
structure Game where
  id : ℕ
  thumbnail : String
  image : String
  name : String
  description : String
  yearPublished : ℤ
  categories : List String
  mechanics : List String
  complexity : Option ℚ
  rating : GameRating
  playTimeMinutes : GamePlayTime
  age : GameAge
  playerCount : GamePlayerCount
deriving DecidableEq

/-- ASCII whitespace matched by the JavaScript regex class `\s`
(restricted to the ASCII range, which is all the pipeline produces). -/
def isJsWhitespace (c : Char) : Bool :=
  c = ' ' ∨ c = '\t' ∨ c = '\n' ∨ c = '\r' ∨ c = '\x0b' ∨ c = '\x0c'

/-- The `.replace(/&#(\d+)(;)/g, " ")` pass of `parseGame`: every numeric
character reference is replaced by a single space, scanning left to
right. -/
def stripNumericRefs : List Char → List Char
  | [] => []
  | '&' :: '#' :: rest2 =>
    if (rest2.takeWhile Char.isDigit).isEmpty then '&' :: stripNumericRefs ('#' :: rest2)
    else
      match h : rest2.drop (rest2.takeWhile Char.isDigit).length with
      | ';' :: tail => ' ' :: stripNumericRefs tail
      | _ => '&' :: stripNumericRefs ('#' :: rest2)
  | c :: rest => c :: stripNumericRefs rest
termination_by l => l.length
decreasing_by
  · simp only [List.length_cons]; omega
  · have hlen : tail.length + 1 ≤ rest2.length := by
      have h1 := congrArg List.length h
      simp only [List.length_drop, List.length_cons] at h1
      omega
    simp only [List.length_cons]; omega
  · simp only [List.length_cons]; omega
  · simp only [List.length_cons]; omega

/-- The `.replace(/\n/g, " ")` pass of `parseGame`. -/
def replaceNewlines (l : List Char) : List Char :=
  l.map fun c => if c = '\n' then ' ' else c

/-- The `.replace(/\s\s+/g, " ")` pass of `parseGame`: every maximal run of two
or more whitespace characters collapses to a single space. -/
def collapseWhitespace : List Char → List Char
  | [] => []
  | c :: rest =>
    if isJsWhitespace c then
      if (rest.takeWhile isJsWhitespace).isEmpty then c :: collapseWhitespace rest
      else ' ' :: collapseWhitespace (rest.drop (rest.takeWhile isJsWhitespace).length)
    else c :: collapseWhitespace rest
termination_by l => l.length
decreasing_by
  · simp only [List.length_cons]; omega
  · simp only [List.length_cons, List.length_drop]; omega
  · simp only [List.length_cons]; omega

/-- The description cleanup chain of `parseGame` after the two decode
passes: blank numeric character references, turn newlines into spaces,
collapse whitespace runs. -/
def cleanDescription (s : String) : String :=
  (collapseWhitespace (replaceNewlines (stripNumericRefs s.data))).asString

/-- Function `parseGame` from src/index.ts.  The two HTML-entity decode passes
(`decode(..., level: "html5")` then `decode(..., level: "html4")`) are
external library calls and are passed in as black-box functions. -/
def parseGame (decodeHtml5 decodeHtml4 : String → String) (thing : BggThingDto) : Game :=
  let playerCountPoll := calculateRecommendedPlayerCountScore thing.polls
  let agePoll := calculateRecommendedAgeScore thing.polls
  { id := thing.id
    thumbnail := thing.thumbnail
    image := thing.image
    name := thing.name
    description := cleanDescription (decodeHtml4 (decodeHtml5 thing.description))
    yearPublished := thing.yearpublished
    rating :=
      { average := thing.statistics.ratings.average
        bayesian := thing.statistics.ratings.bayesaverage
        stddev := thing.statistics.ratings.stddev }
    complexity := thing.statistics.ratings.averageweight
    categories :=
      match thing.links with
      | none => []
      | some links => (links.filter fun link => link.type == "boardgamecategory").map
          fun link => link.value
    mechanics :=
      match thing.links with
      | none => []
      | some links => (links.filter fun link => link.type == "boardgamemechanic").map
          fun link => link.value
    playTimeMinutes :=
      { rated := thing.playingtime
        min := thing.minplaytime
        max := thing.maxplaytime }
    playerCount :=
      { min := thing.minplayers
        max := thing.maxplayers
        suggested := (getTopRecommendation playerCountPoll).map fun r => r.value
        pollResults := playerCountPoll }
    age :=
      { rated := thing.minage
        suggested := (getTopRecommendation agePoll).map fun r => r.value
        pollResults := agePoll } }

/-- Interface `BatchError` from src/index.ts: `{ids, error}`. -/
structure BatchError where
  ids : List ℕ
  error : String
deriving DecidableEq, Repr

/-- Interface `Stats` from src/index.ts; `start`/`endTime` are the opaque
timestamps (`end` is a Lean keyword, hence the rename); durations are
exact rationals. -/
structure Stats where
  start : ℕ
  endTime : Option ℕ
  batchSize : ℕ
  availableBatches : ℤ
  startingBatch : ℕ
  batchesProcessed : ℕ
  errors : List BatchError
  averageTimePerBatch : ℚ
deriving DecidableEq

/-- One row of the input key source; the pipeline only reads `row.id`. -/
structure SourceRow where
  id : ℕ
deriving DecidableEq, Repr

/-- Expression `Math.ceil(df.value.length / batchSize)` from src/index.ts, computed
from the full queue length before any row is consumed. -/
def totalBatchCount (queueLength batchSize : ℕ) : ℤ :=
  ⌈(queueLength : ℚ) / (batchSize : ℚ)⌉

/-- The repeated `df.value.splice(0, batchSize)` batching of the
ingestion loop, viewed over the whole input: the list of batches the loop
consumes in order. -/
def spliceBatches {α : Type} (batchSize : ℕ) (rows : List α) : List (List α) :=
  if rows.isEmpty || batchSize == 0 then []
  else rows.take batchSize :: spliceBatches batchSize (rows.drop batchSize)
termination_by rows.length
decreasing_by
  rename_i h
  simp only [Bool.or_eq_true, List.isEmpty_iff, beq_iff_eq, not_or] at h
  have h1 : rows.length ≠ 0 := fun hl => h.1 (List.eq_nil_of_length_eq_zero hl)
  simp only [List.length_drop]
  omega

/-- The incremental-mean update of src/index.ts lines 377-379:
`avg' = (avg * (n - 1) + duration) / n` where `n` is the new
`batchesProcessed` count. -/
def updateAverage (avg : ℚ) (n : ℕ) (duration : ℚ) : ℚ :=
  (avg * ((n : ℚ) - 1) + duration) / (n : ℚ)

/-- Folding the per-batch bookkeeping over a run's successful batch
durations: returns (`averageTimePerBatch`, `batchesProcessed`) starting
from the initial stats (0, 0). -/
def runningAverage (durations : List ℚ) : ℚ × ℕ :=
  durations.foldl (fun acc d => (updateAverage acc.1 (acc.2 + 1) d, acc.2 + 1)) (0, 0)

/-- The pre-loop setup of src/index.ts lines 303-332: compute the total
batch count from the full input, apply the optional `skip` by splicing
`skipBatchCount * batchSize` rows off the front and setting the batch
counter, take the first batch, increment the counter, and build the
initial `Stats` record. -/
structure InitResult where
  queue : List SourceRow
  batch : List SourceRow
  currentBatchCount : ℕ
  stats : Stats
deriving DecidableEq

def initRun (rows : List SourceRow) (batchSize : ℕ) (skipBatchCount : Option ℕ)
    (startTime : ℕ) : InitResult :=
  let total := totalBatchCount rows.length batchSize
  let afterSkip :=
    match skipBatchCount with
    | some n => (rows.drop (n * batchSize), n)
    | none => (rows, 0)
  let batch := afterSkip.1.take batchSize
  let queue := afterSkip.1.drop batchSize
  let currentBatchCount := afterSkip.2 + 1
  { queue := queue
    batch := batch
    currentBatchCount := currentBatchCount
    stats :=
      { start := startTime
        endTime := none
        batchSize := batchSize
        availableBatches := total
        startingBatch := currentBatchCount
        batchesProcessed := 0
        averageTimePerBatch := 0
        errors := [] } }

/-- Outcome of one `client.thing.query` call: the call either raised a
transport error or returned a (possibly absent or empty) result list. -/
inductive FetchResult where
  | raised (e : String)
  | returned (things : Option (List BggThingDto))
deriving DecidableEq

/-- The mutable state of the ingestion `while` loop of src/index.ts:
remaining queue (`df.value`), current `batch`, `currentBatchCount`, the
client handle (modelled by a generation counter that `BggClient.Create()`
increments), the `stats` record, and the batch output files written so
far (batch index paired with the serialized game list). -/
structure IngestState where
  queue : List SourceRow
  batch : List SourceRow
  currentBatchCount : ℕ
  client : ℕ
  stats : Stats
  outputs : List (ℕ × List Game)
deriving DecidableEq

/-- One iteration of the ingestion `while` loop (src/index.ts lines
340-406) given the fetch outcome and the measured batch duration.
On a raised transport error: record the error, recreate the client,
(sleep) and `continue` with the same batch.  On a returned result:
an empty/absent list is recorded as an error and replaced by `[]`
("skipping batch"); either way the output file is written, the next
batch is spliced off the queue, and the stats are updated. -/
def loopStep (decodeHtml5 decodeHtml4 : String → String) (s : IngestState)
    (fetch : FetchResult) (timeTaken : ℚ) : IngestState :=
  let ids := s.batch.map fun row => row.id
  match fetch with
  | .raised _ =>
    let error := "Error fetching batch, recreating client and retrying after 5sec..."
    { s with
      stats := { s.stats with errors := s.stats.errors ++ [⟨ids, error⟩] }
      client := s.client + 1 }
  | .returned t =>
    let fetched : List BggThingDto × List BatchError :=
      match t with
      | none => ([], s.stats.errors ++ [⟨ids, "No data returned from BGG API"⟩])
      | some [] => ([], s.stats.errors ++ [⟨ids, "No data returned from BGG API"⟩])
      | some things => (things, s.stats.errors)
    let newProcessed := s.stats.batchesProcessed + 1
    { queue := s.queue.drop s.stats.batchSize
      batch := s.queue.take s.stats.batchSize
      currentBatchCount := s.currentBatchCount + 1
      client := s.client
      stats :=
        { s.stats with
          errors := fetched.2
          batchesProcessed := newProcessed
          averageTimePerBatch :=
            updateAverage s.stats.averageTimePerBatch newProcessed timeTaken }
      outputs := s.outputs ++
        [(s.currentBatchCount, fetched.1.map (parseGame decodeHtml5 decodeHtml4))] }

/-- The `reduce` inside `getTopRecommendation`, abstracted over its seed. -/
def foldTop (acc : Recommendation) (l : List Recommendation) : Recommendation :=
  l.foldl (fun acc item => if acc.score < item.score then item else acc) acc

lemma foldTop_nil (acc : Recommendation) : foldTop acc [] = acc := rfl

lemma foldTop_cons (acc a : Recommendation) (l : List Recommendation) :
    foldTop acc (a :: l) = foldTop (if acc.score < a.score then a else acc) l := rfl

/-- The fold returns its seed (dominating everything) or the first
element of the list that strictly improves on everything before it and
weakly dominates everything. -/
lemma foldTop_char (l : List Recommendation) : ∀ acc : Recommendation,
    (foldTop acc l = acc ∧ ∀ r ∈ l, r.score ≤ acc.score) ∨
    (∃ i, ∃ hi : i < l.length, l.get ⟨i, hi⟩ = foldTop acc l ∧
      acc.score < (foldTop acc l).score ∧
      (∀ r ∈ l, r.score ≤ (foldTop acc l).score) ∧
      ∀ j, ∀ hj : j < l.length, j < i → (l.get ⟨j, hj⟩).score < (foldTop acc l).score) := by
  induction l with
  | nil => intro acc; left; exact ⟨rfl, by simp⟩
  | cons a l ih =>
    intro acc
    by_cases hlt : acc.score < a.score
    · have hfold : foldTop acc (a :: l) = foldTop a l := by
        rw [foldTop_cons, if_pos hlt]
      rcases ih a with ⟨heq, hle⟩ | ⟨i, hi, hget, hacc, hle, hfirst⟩
      · right
        refine ⟨0, by simp, ?_, ?_, ?_, ?_⟩
        · simp [hfold, heq]
        · rw [hfold, heq]; exact hlt
        · intro r hr
          rcases List.mem_cons.mp hr with rfl | hr
          · rw [hfold, heq]
          · rw [hfold, heq]; exact hle r hr
        · intro j hj hj0; omega
      · right
        refine ⟨i + 1, by simpa using hi, ?_, ?_, ?_, ?_⟩
        · simpa [hfold] using hget
        · rw [hfold]; exact lt_trans hlt hacc
        · intro r hr
          rcases List.mem_cons.mp hr with rfl | hr
          · rw [hfold]; exact le_of_lt hacc
          · rw [hfold]; exact hle r hr
        · intro j hj hjlt
          match j with
          | 0 => simpa [hfold] using hacc
          | k + 1 =>
            have hk : k < i := by omega
            have := hfirst k (by simpa using hj) hk
            simpa [hfold] using this
    · have hfold : foldTop acc (a :: l) = foldTop acc l := by
        rw [foldTop_cons, if_neg hlt]
      rcases ih acc with ⟨heq, hle⟩ | ⟨i, hi, hget, hacc, hle, hfirst⟩
      · left
        refine ⟨by rw [hfold, heq], ?_⟩
        intro r hr
        rcases List.mem_cons.mp hr with rfl | hr
        · exact le_of_not_lt hlt
        · exact hle r hr
      · right
        refine ⟨i + 1, by simpa using hi, ?_, ?_, ?_, ?_⟩
        · simpa [hfold] using hget
        · rw [hfold]; exact hacc
        · intro r hr
          rcases List.mem_cons.mp hr with rfl | hr
          · rw [hfold]; exact le_trans (le_of_not_lt hlt) (le_of_lt hacc)
          · rw [hfold]; exact hle r hr
        · intro j hj hjlt
          match j with
          | 0 =>
            rw [hfold]
            exact lt_of_le_of_lt (le_of_not_lt hlt) hacc
          | k + 1 =>
            have hk : k < i := by omega
            have := hfirst k (by simpa using hj) hk
            simpa [hfold] using this

lemma getTop_some_of_all (l : List Recommendation)
    (hall : l.all (fun item => item.score == 0) = false) (hne : l ≠ []) :
    ∃ r0, getTopRecommendation (some l) = some (foldTop r0 l) ∧ ∃ t, l = r0 :: t := by
  match l with
  | [] => exact absurd rfl hne
  | a :: rest =>
    refine ⟨a, ?_, rest, rfl⟩
    simp only [getTopRecommendation, hall, Bool.false_eq_true, if_false]
    rfl

/-- Full first-max characterization of a successful `getTopRecommendation`. -/
lemma getTop_char (l : List Recommendation) (r0 : Recommendation)
    (h : getTopRecommendation (some l) = some r0) :
    r0 ∈ l ∧ (∀ r ∈ l, r.score ≤ r0.score) ∧
    ∃ i, ∃ hi : i < l.length, l.get ⟨i, hi⟩ = r0 ∧
      ∀ j, ∀ hj : j < l.length, j < i → (l.get ⟨j, hj⟩).score < r0.score := by
  match l with
  | [] => simp [getTopRecommendation] at h
  | a :: rest =>
    by_cases hall : (a :: rest).all (fun item => item.score == 0)
    · rw [getTopRecommendation, if_pos hall] at h
      exact absurd h (by simp)
    · rw [getTopRecommendation, if_neg hall] at h
      have hres : foldTop a (a :: rest) = r0 := by
        simpa [foldTop] using h
      rcases foldTop_char (a :: rest) a with ⟨heq, hle⟩ | ⟨i, hi, hget, hacc, hle, hfirst⟩
      · have hr0 : r0 = a := by rw [← hres, heq]
        subst hr0
        refine ⟨List.mem_cons_self _ _, ?_, 0, by simp, by simp, ?_⟩
        · intro r hr; exact hle r hr
        · intro j hj hj0; omega
      · rw [hres] at hget hacc hle hfirst
        refine ⟨?_, hle, i, hi, hget, fun j hj hjlt => hfirst j hj hjlt⟩
        rw [← hget]; exact List.get_mem _ _ _

/-- C4: `getTopRecommendation` returns absent on an absent, empty, or
all-zero-score list; on every other list it returns the first element
achieving the maximum score (stable left-to-right tie-break), hence an
element of the input list — so the `suggested` value `parseGame` derives
from it occurs in the `pollResults` list it is reported with; and on
`[⟨A,10⟩, ⟨B,30⟩, ⟨B2,30⟩]` it returns `⟨B,30⟩`. -/
theorem claim_C4_topRecommendation :
    getTopRecommendation none = none ∧
    getTopRecommendation (some []) = none ∧
    (∀ l : List Recommendation, (∀ r ∈ l, r.score = 0) →
      getTopRecommendation (some l) = none) ∧
    (∀ l : List Recommendation, l ≠ [] → (∃ r ∈ l, r.score ≠ 0) →
      (getTopRecommendation (some l)).isSome) ∧
    (∀ (l : List Recommendation) (r0 : Recommendation),
      getTopRecommendation (some l) = some r0 →
      r0 ∈ l ∧ (∀ r ∈ l, r.score ≤ r0.score) ∧
      ∃ i, ∃ hi : i < l.length, l.get ⟨i, hi⟩ = r0 ∧
        ∀ j, ∀ hj : j < l.length, j < i → (l.get ⟨j, hj⟩).score < r0.score) ∧
    (∀ (d5 d4 : String → String) (thing : BggThingDto) (v : String),
      (parseGame d5 d4 thing).playerCount.suggested = some v →
      ∃ lst, (parseGame d5 d4 thing).playerCount.pollResults = some lst ∧
        ∃ r ∈ lst, r.value = v) ∧
    getTopRecommendation (some [⟨"A", 10⟩, ⟨"B", 30⟩, ⟨"B2", 30⟩]) = some ⟨"B", 30⟩ := by
  refine ⟨rfl, rfl, ?_, ?_, ?_, ?_, by decide⟩
  · intro l hall
    match l with
    | [] => rfl
    | a :: rest =>
      rw [getTopRecommendation, if_pos]
      simp only [List.all_eq_true, beq_iff_eq]
      exact hall
  · intro l hne hex
    have hall : l.all (fun item => item.score == 0) = false := by
      rcases hex with ⟨r, hr, hscore⟩
      simp only [List.all_eq_false]
      exact ⟨r, hr, by simpa using hscore⟩
    rcases getTop_some_of_all l hall hne with ⟨r0, heq, -⟩
    rw [heq]; rfl
  · exact getTop_char
  · intro d5 d4 thing v hv
    have hsug : (parseGame d5 d4 thing).playerCount.suggested =
        (getTopRecommendation (calculateRecommendedPlayerCountScore thing.polls)).map
          (fun r => r.value) := rfl
    have hpoll : (parseGame d5 d4 thing).playerCount.pollResults =
        calculateRecommendedPlayerCountScore thing.polls := rfl
    rw [hsug] at hv
    rcases Option.map_eq_some'.mp hv with ⟨r0, hr0, hval⟩
    match hp : calculateRecommendedPlayerCountScore thing.polls with
    | none => rw [hp] at hr0; exact absurd hr0 (by simp [getTopRecommendation])
    | some lst =>
      rw [hp] at hr0
      refine ⟨lst, by rw [hpoll, hp], r0, (getTop_char lst r0 hr0).1, hval⟩

/-- Witness for C4 at concrete inputs. -/
theorem claim_C4_witness :
    getTopRecommendation (some [⟨"A", 0⟩]) = none ∧
    (⟨"B", 30⟩ : Recommendation) ∈
      ([⟨"A", 10⟩, ⟨"B", 30⟩, ⟨"B2", 30⟩] : List Recommendation) :=
  ⟨claim_C4_topRecommendation.2.2.1 [⟨"A", 0⟩] (by decide),
   (claim_C4_topRecommendation.2.2.2.2.1 [⟨"A", 10⟩, ⟨"B", 30⟩, ⟨"B2", 30⟩]
      ⟨"B", 30⟩ (by decide)).1⟩

lemma age_inner_fold (tv : ℕ) (items : List BggPollResultItemDto) :
    ∀ acc : List Recommendation,
      items.foldl (fun result ageVote =>
        if nullGuard ageVote.numvotes 0 = 0 then result
        else result ++ [⟨ageVote.value,
          jsRound (((nullGuard ageVote.numvotes 0 : ℕ) : ℚ) / (tv : ℚ) * 100)⟩]) acc
      = acc ++ items.filterMap (fun ageVote =>
          if nullGuard ageVote.numvotes 0 = 0 then none
          else some ⟨ageVote.value,
            jsRound (((nullGuard ageVote.numvotes 0 : ℕ) : ℚ) / (tv : ℚ) * 100)⟩) := by
  induction items with
  | nil => intro acc; simp
  | cons v items ih =>
    intro acc
    simp only [List.foldl_cons, List.filterMap_cons]
    by_cases hv : nullGuard v.numvotes 0 = 0
    · rw [if_pos hv, if_pos hv, ih]
    · rw [if_neg hv, if_neg hv, ih, List.append_assoc]
      rfl

lemma age_outer_fold (tv : ℕ) (results : List BggPollResultDto) :
    ∀ acc : List Recommendation,
      results.foldl (fun result item =>
        item.resultItemList.foldl (fun result ageVote =>
          if nullGuard ageVote.numvotes 0 = 0 then result
          else result ++ [⟨ageVote.value,
            jsRound (((nullGuard ageVote.numvotes 0 : ℕ) : ℚ) / (tv : ℚ) * 100)⟩]) result) acc
      = acc ++ results.flatMap (fun item =>
          item.resultItemList.filterMap (fun ageVote =>
            if nullGuard ageVote.numvotes 0 = 0 then none
            else some ⟨ageVote.value,
              jsRound (((nullGuard ageVote.numvotes 0 : ℕ) : ℚ) / (tv : ℚ) * 100)⟩)) := by
  induction results with
  | nil => intro acc; simp
  | cons item results ih =>
    intro acc
    simp only [List.foldl_cons, List.flatMap_cons]
    rw [age_inner_fold, ih, List.append_assoc]

/-- Lemma: `parsePlayerAgePoll` rephrased — the pushed entries are exactly the
filter-map over the result groups. -/
lemma parsePlayerAgePoll_eq (poll : BggPollDto) :
    parsePlayerAgePoll poll =
      match poll.results with
      | none => none
      | some results =>
        if results.length = 0 then none
        else if nullGuard poll.totalvotes 0 = 0 then none
        else
          let recs := results.flatMap fun item =>
            item.resultItemList.filterMap fun ageVote =>
              if nullGuard ageVote.numvotes 0 = 0 then none
              else some ⟨ageVote.value,
                jsRound (((nullGuard ageVote.numvotes 0 : ℕ) : ℚ) /
                  ((nullGuard poll.totalvotes 0 : ℕ) : ℚ) * 100)⟩
          if recs.length = 0 then none else some recs := by
  rcases hres : poll.results with _ | results
  · simp [parsePlayerAgePoll, hres]
  · simp only [parsePlayerAgePoll, hres]
    by_cases hlen : results.length = 0
    · simp [hlen]
    · by_cases htv : nullGuard poll.totalvotes 0 = 0
      · simp [hlen, htv]
      · simp only [hlen, htv, if_neg, if_false]
        rw [age_outer_fold]
        simp

/-- Pointwise equality of the age-poll per-entry score
`round((v/t)*100)` with the spec's `round(100*v/t)`. -/
lemma ageVote_fun_eq (t : ℕ) :
    (fun ageVote : BggPollResultItemDto =>
      if nullGuard ageVote.numvotes 0 = 0 then none
      else some (⟨ageVote.value,
        jsRound (((nullGuard ageVote.numvotes 0 : ℕ) : ℚ) / ((t : ℕ) : ℚ) * 100)⟩ :
          Recommendation)) =
    (fun ageVote : BggPollResultItemDto =>
      if nullGuard ageVote.numvotes 0 = 0 then none
      else some ⟨ageVote.value,
        jsRound (100 * ((nullGuard ageVote.numvotes 0 : ℕ) : ℚ) / ((t : ℕ) : ℚ))⟩) := by
  funext ageVote
  by_cases hv : nullGuard ageVote.numvotes 0 = 0
  · rw [if_pos hv, if_pos hv]
  · rw [if_neg hv, if_neg hv]
    have harg : ((nullGuard ageVote.numvotes 0 : ℕ) : ℚ) / ((t : ℕ) : ℚ) * 100 =
        100 * ((nullGuard ageVote.numvotes 0 : ℕ) : ℚ) / ((t : ℕ) : ℚ) := by ring
    rw [harg]

lemma parseAge_eq_none_of_results_none (poll : BggPollDto) (h : poll.results = none) :
    parsePlayerAgePoll poll = none := by
  simp [parsePlayerAgePoll, h]

lemma parseAge_eq_none_of_results_nil (poll : BggPollDto) (h : poll.results = some []) :
    parsePlayerAgePoll poll = none := by
  simp [parsePlayerAgePoll, h]

lemma parseAge_eq_none_of_totalvotes_zero (poll : BggPollDto)
    (results : List BggPollResultDto) (h : poll.results = some results)
    (htv : nullGuard poll.totalvotes 0 = 0) :
    parsePlayerAgePoll poll = none := by
  by_cases hlen : results.length = 0
  · simp [parsePlayerAgePoll, h, hlen]
  · simp [parsePlayerAgePoll, h, hlen, htv]

lemma parseAge_some_char_none (poll : BggPollDto) (results : List BggPollResultDto)
    (hres : poll.results = some results) (hlen : ¬ results.length = 0)
    (htv : ¬ nullGuard poll.totalvotes 0 = 0)
    (hfm : (results.flatMap fun item =>
        item.resultItemList.filterMap fun ageVote =>
          if nullGuard ageVote.numvotes 0 = 0 then none
          else some (⟨ageVote.value,
            jsRound (((nullGuard ageVote.numvotes 0 : ℕ) : ℚ) /
              ((nullGuard poll.totalvotes 0 : ℕ) : ℚ) * 100)⟩ :
                Recommendation)).length = 0) :
    parsePlayerAgePoll poll = none := by
  simp only [parsePlayerAgePoll, hres]
  rw [if_neg hlen, if_neg htv, age_outer_fold]
  simp only [List.nil_append]
  rw [if_pos hfm]

lemma parseAge_some_char_some (poll : BggPollDto) (results : List BggPollResultDto)
    (hres : poll.results = some results) (hlen : ¬ results.length = 0)
    (htv : ¬ nullGuard poll.totalvotes 0 = 0)
    (hfm : ¬ (results.flatMap fun item =>
        item.resultItemList.filterMap fun ageVote =>
          if nullGuard ageVote.numvotes 0 = 0 then none
          else some (⟨ageVote.value,
            jsRound (((nullGuard ageVote.numvotes 0 : ℕ) : ℚ) /
              ((nullGuard poll.totalvotes 0 : ℕ) : ℚ) * 100)⟩ :
                Recommendation)).length = 0) :
    parsePlayerAgePoll poll =
      some (results.flatMap fun item =>
        item.resultItemList.filterMap fun ageVote =>
          if nullGuard ageVote.numvotes 0 = 0 then none
          else some ⟨ageVote.value,
            jsRound (((nullGuard ageVote.numvotes 0 : ℕ) : ℚ) /
              ((nullGuard poll.totalvotes 0 : ℕ) : ℚ) * 100)⟩) := by
  simp only [parsePlayerAgePoll, hres]
  rw [if_neg hlen, if_neg htv, age_outer_fold]
  simp only [List.nil_append]
  rw [if_neg hfm]

/-- C3: `scoreAgePoll` (calculateRecommendedAgeScore via
parsePlayerAgePoll) is absent exactly when no poll is named
`"suggested_playerage"`, the poll has no result groups, totalVotes is
zero or absent, or every vote entry has zero votes; otherwise it emits
`{value, round(100 * numVotes / totalVotes)}` for every entry with
positive votes, in source-encounter order. -/
theorem claim_C3_scoreAgePoll :
    (∀ poll : BggPollDto,
      (parsePlayerAgePoll poll = none ↔
        poll.results = none ∨ poll.results = some [] ∨
        nullGuard poll.totalvotes 0 = 0 ∨
        ∀ item ∈ nullGuard poll.results [], ∀ ageVote ∈ item.resultItemList,
          nullGuard ageVote.numvotes 0 = 0) ∧
      ∀ recs, parsePlayerAgePoll poll = some recs →
        recs = (nullGuard poll.results []).flatMap fun item =>
          item.resultItemList.filterMap fun ageVote =>
            if nullGuard ageVote.numvotes 0 = 0 then none
            else some ⟨ageVote.value,
              jsRound (100 * ((nullGuard ageVote.numvotes 0 : ℕ) : ℚ) /
                ((nullGuard poll.totalvotes 0 : ℕ) : ℚ))⟩) ∧
    calculateRecommendedAgeScore none = none ∧
    (∀ polls : List BggPollDto, (∀ p ∈ polls, ¬ p.name = "suggested_playerage") →
      calculateRecommendedAgeScore (some polls) = none) ∧
    (∀ polls poll, List.find? (fun p => p.name == "suggested_playerage") polls = some poll →
      calculateRecommendedAgeScore (some polls) = parsePlayerAgePoll poll) := by
  refine ⟨fun poll => ⟨?_, ?_⟩, rfl, ?_, ?_⟩
  · -- the absence characterization
    rcases hres : poll.results with _ | results
    · exact ⟨fun _ => Or.inl rfl, fun _ => parseAge_eq_none_of_results_none poll hres⟩
    · by_cases hlen : results.length = 0
      · have hnil : results = [] := List.length_eq_zero.mp hlen
        exact ⟨fun _ => Or.inr (Or.inl (by rw [hnil])),
          fun _ => parseAge_eq_none_of_results_nil poll (by rw [hres, hnil])⟩
      · by_cases htv : nullGuard poll.totalvotes 0 = 0
        · exact ⟨fun _ => Or.inr (Or.inr (Or.inl htv)),
            fun _ => parseAge_eq_none_of_totalvotes_zero poll results hres htv⟩
        · by_cases hfm : (results.flatMap fun item =>
              item.resultItemList.filterMap fun ageVote =>
                if nullGuard ageVote.numvotes 0 = 0 then none
                else some (⟨ageVote.value,
                  jsRound (((nullGuard ageVote.numvotes 0 : ℕ) : ℚ) /
                    ((nullGuard poll.totalvotes 0 : ℕ) : ℚ) * 100)⟩ :
                      Recommendation)).length = 0
          · constructor
            · intro _
              refine Or.inr (Or.inr (Or.inr ?_))
              intro item hitem ageVote hvote
              have hitem2 : item ∈ results := by simpa [nullGuard] using hitem
              have hnil := List.length_eq_zero.mp hfm
              by_contra hnz
              have hmem : (⟨ageVote.value,
                  jsRound (((nullGuard ageVote.numvotes 0 : ℕ) : ℚ) /
                    ((nullGuard poll.totalvotes 0 : ℕ) : ℚ) * 100)⟩ : Recommendation) ∈
                  item.resultItemList.filterMap fun ageVote =>
                    if nullGuard ageVote.numvotes 0 = 0 then none
                    else some ⟨ageVote.value,
                      jsRound (((nullGuard ageVote.numvotes 0 : ℕ) : ℚ) /
                        ((nullGuard poll.totalvotes 0 : ℕ) : ℚ) * 100)⟩ :=
                List.mem_filterMap.mpr ⟨ageVote, hvote, by rw [if_neg hnz]⟩
              have hmem2 : (⟨ageVote.value,
                  jsRound (((nullGuard ageVote.numvotes 0 : ℕ) : ℚ) /
                    ((nullGuard poll.totalvotes 0 : ℕ) : ℚ) * 100)⟩ : Recommendation) ∈
                  results.flatMap fun item =>
                    item.resultItemList.filterMap fun ageVote =>
                      if nullGuard ageVote.numvotes 0 = 0 then none
                      else some ⟨ageVote.value,
                        jsRound (((nullGuard ageVote.numvotes 0 : ℕ) : ℚ) /
                          ((nullGuard poll.totalvotes 0 : ℕ) : ℚ) * 100)⟩ :=
                List.mem_flatMap.mpr ⟨item, hitem2, hmem⟩
              rw [hnil] at hmem2
              exact absurd hmem2 (List.not_mem_nil _)
            · intro _; exact parseAge_some_char_none poll results hres hlen htv hfm
          · constructor
            · intro hnone
              rw [parseAge_some_char_some poll results hres hlen htv hfm] at hnone
              exact absurd hnone (Option.some_ne_none _)
            · intro hcond
              rcases hcond with h1 | h2 | h3 | h4
              · exact absurd h1 (by simp)
              · have hr : results = [] := by injection h2
                exact absurd (by rw [hr]; rfl) hlen
              · exact absurd h3 htv
              · exfalso
                apply hfm
                rw [List.length_eq_zero, List.eq_nil_iff_forall_not_mem]
                intro rec hrec
                rcases List.mem_flatMap.mp hrec with ⟨item, hitem, hrecf⟩
                rcases List.mem_filterMap.mp hrecf with ⟨ageVote, hvote, hg⟩
                have hz := h4 item (by simpa [nullGuard] using hitem) ageVote hvote
                rw [if_pos hz] at hg
                exact Option.noConfusion hg
  · -- the emission formula
    intro recs hsome
    rcases hres : poll.results with _ | results
    · rw [parseAge_eq_none_of_results_none poll hres] at hsome
      exact absurd hsome (by simp)
    · by_cases hlen : results.length = 0
      · have hnil : results = [] := List.length_eq_zero.mp hlen
        rw [hnil] at hres
        rw [parseAge_eq_none_of_results_nil poll hres] at hsome
        exact absurd hsome (by simp)
      · by_cases htv : nullGuard poll.totalvotes 0 = 0
        · rw [parseAge_eq_none_of_totalvotes_zero poll results hres htv] at hsome
          exact absurd hsome (by simp)
        · by_cases hfm : (results.flatMap fun item =>
              item.resultItemList.filterMap fun ageVote =>
                if nullGuard ageVote.numvotes 0 = 0 then none
                else some (⟨ageVote.value,
                  jsRound (((nullGuard ageVote.numvotes 0 : ℕ) : ℚ) /
                    ((nullGuard poll.totalvotes 0 : ℕ) : ℚ) * 100)⟩ :
                      Recommendation)).length = 0
          · rw [parseAge_some_char_none poll results hres hlen htv hfm] at hsome
            exact absurd hsome (by simp)
          · rw [parseAge_some_char_some poll results hres hlen htv hfm] at hsome
            have hrecs := (Option.some_inj.mp hsome).symm
            rw [hrecs]
            have hng : nullGuard (some results) ([] : List BggPollResultDto) = results := rfl
            rw [hng]
            congr 1
            funext item
            rw [ageVote_fun_eq (nullGuard poll.totalvotes 0)]
  · -- no poll with the name: absent
    intro polls hnone
    have hfind : List.find? (fun p => p.name == "suggested_playerage") polls = none := by
      rw [List.find?_eq_none]
      intro p hp
      simpa using hnone p hp
    simp [calculateRecommendedAgeScore, hfind]
  · -- a poll with the name is found: delegate to parsePlayerAgePoll
    intro polls poll hfind
    simp [calculateRecommendedAgeScore, hfind]

/-- Witness for C3 at concrete inputs: a poll with zero total votes is
absent, and the named-poll lookup delegates on a singleton list. -/
theorem claim_C3_witness :
    parsePlayerAgePoll ⟨"suggested_playerage", some 0,
      some [⟨none, [⟨"12", some 3⟩]⟩]⟩ = none ∧
    calculateRecommendedAgeScore
      (some [⟨"suggested_playerage", some 0, some [⟨none, [⟨"12", some 3⟩]⟩]⟩]) =
      parsePlayerAgePoll ⟨"suggested_playerage", some 0, some [⟨none, [⟨"12", some 3⟩]⟩]⟩ :=
  ⟨(claim_C3_scoreAgePoll.1 _).1.mpr (Or.inr (Or.inr (Or.inl rfl))),
   claim_C3_scoreAgePoll.2.2.2 _ _ rfl⟩

/-- Spec wording for C2: the weighted tally of one result group —
"Best" contributes `+1.0 × votes`, "Recommended" `+0.5 × votes`,
"Not Recommended" `−0.5 × votes`. -/
def weightedTally (items : List BggPollResultItemDto) : ℚ :=
  (items.map fun it =>
    if it.value = "Best" then ((nullGuard it.numvotes 0 : ℕ) : ℚ)
    else if it.value = "Recommended" then (1/2 : ℚ) * ((nullGuard it.numvotes 0 : ℕ) : ℚ)
    else if it.value = "Not Recommended" then -((1/2 : ℚ) * ((nullGuard it.numvotes 0 : ℕ) : ℚ))
    else 0).sum

/-- Spec wording for C2: the group vote count — votes accumulate for the
three recognized options regardless of the sign of their weight. -/
def groupVoteCount (items : List BggPollResultItemDto) : ℕ :=
  (items.map fun it =>
    if it.value = "Best" ∨ it.value = "Recommended" ∨ it.value = "Not Recommended"
    then nullGuard it.numvotes 0 else 0).sum

/-- Spec wording for C2 (`scorePlayerCountPoll`): for each result group
with a present numeric bucket, emit `{value: bucket,
score: round(100 × tally / groupVoteCount) floored at 0}`, omitting
groups whose accumulated vote count is zero; absent when the poll yields
no non-empty groups. -/
def scorePlayerCountPollSpec (poll : BggPollDto) : Option (List Recommendation) :=
  match poll.results with
  | none => none
  | some results =>
    if results.length = 0 then none
    else
      let recs := results.filterMap fun item =>
        match item.numplayers with
        | none => none
        | some bucket =>
          if groupVoteCount item.resultItemList = 0 then none
          else some ⟨bucket,
            max 0 (jsRound (100 * weightedTally item.resultItemList /
              ((groupVoteCount item.resultItemList : ℕ) : ℚ)))⟩
      if recs.length = 0 then none else some recs

/-- Spec wording for C2, lifted over the poll list: absent when the poll
named `"suggested_numplayers"` is missing. -/
def scorePlayerCountSpec (polls : Option (List BggPollDto)) : Option (List Recommendation) :=
  match polls.bind (List.find? fun p => p.name == "suggested_numplayers") with
  | none => none
  | some poll => scorePlayerCountPollSpec poll

lemma weightedTally_cons (it : BggPollResultItemDto) (items : List BggPollResultItemDto) :
    weightedTally (it :: items) =
      (if it.value = "Best" then ((nullGuard it.numvotes 0 : ℕ) : ℚ)
       else if it.value = "Recommended" then
         (1/2 : ℚ) * ((nullGuard it.numvotes 0 : ℕ) : ℚ)
       else if it.value = "Not Recommended" then
         -((1/2 : ℚ) * ((nullGuard it.numvotes 0 : ℕ) : ℚ))
       else 0) + weightedTally items := by
  simp [weightedTally]

lemma groupVoteCount_cons (it : BggPollResultItemDto) (items : List BggPollResultItemDto) :
    groupVoteCount (it :: items) =
      (if it.value = "Best" ∨ it.value = "Recommended" ∨ it.value = "Not Recommended"
       then nullGuard it.numvotes 0 else 0) + groupVoteCount items := by
  simp [groupVoteCount]

/-- The inner `reduce` of `parseNumPlayersPoll` computes exactly the
spec's weighted tally and group vote count. -/
lemma numPlayers_summary (items : List BggPollResultItemDto) :
    ∀ acc : PollResult,
      items.foldl (fun (acc : PollResult) it =>
        if nullGuard it.numvotes 0 = 0 then acc
        else if it.value = "Best" then
          { score := acc.score + ((nullGuard it.numvotes 0 : ℕ) : ℚ),
            votes := acc.votes + nullGuard it.numvotes 0 }
        else if it.value = "Recommended" then
          { score := acc.score + (1/2 : ℚ) * ((nullGuard it.numvotes 0 : ℕ) : ℚ),
            votes := acc.votes + nullGuard it.numvotes 0 }
        else if it.value = "Not Recommended" then
          { score := acc.score - (1/2 : ℚ) * ((nullGuard it.numvotes 0 : ℕ) : ℚ),
            votes := acc.votes + nullGuard it.numvotes 0 }
        else acc) acc
      = ⟨acc.score + weightedTally items, acc.votes + groupVoteCount items⟩ := by
  induction items with
  | nil =>
    intro acc
    simp [weightedTally, groupVoteCount]
  | cons it items ih =>
    intro acc
    rw [List.foldl_cons, weightedTally_cons, groupVoteCount_cons]
    by_cases hv : nullGuard it.numvotes 0 = 0
    · have hcontrib : (if it.value = "Best" then ((nullGuard it.numvotes 0 : ℕ) : ℚ)
          else if it.value = "Recommended" then
            (1/2 : ℚ) * ((nullGuard it.numvotes 0 : ℕ) : ℚ)
          else if it.value = "Not Recommended" then
            -((1/2 : ℚ) * ((nullGuard it.numvotes 0 : ℕ) : ℚ))
          else 0) = 0 := by
        split_ifs <;> simp [hv]
      have hvotes : (if it.value = "Best" ∨ it.value = "Recommended" ∨
          it.value = "Not Recommended" then nullGuard it.numvotes 0 else 0) = 0 := by
        split_ifs <;> simp [hv]
      rw [if_pos hv, ih, hcontrib, hvotes, zero_add, zero_add]
    · by_cases hb : it.value = "Best"
      · rw [if_neg hv, if_pos hb, if_pos hb, if_pos (Or.inl hb), ih]
        simp only [PollResult.mk.injEq]
        exact ⟨by ring, by omega⟩
      · by_cases hr : it.value = "Recommended"
        · rw [if_neg hv, if_neg hb, if_neg hb, if_pos hr, if_pos hr,
            if_pos (Or.inr (Or.inl hr)), ih]
          simp only [PollResult.mk.injEq]
          exact ⟨by ring, by omega⟩
        · by_cases hn : it.value = "Not Recommended"
          · rw [if_neg hv, if_neg hb, if_neg hb, if_neg hr, if_neg hr, if_pos hn,
              if_pos hn, if_pos (Or.inr (Or.inr hn)), ih]
            simp only [PollResult.mk.injEq]
            exact ⟨by ring, by omega⟩
          · rw [if_neg hv, if_neg hb, if_neg hb, if_neg hr, if_neg hr, if_neg hn,
              if_neg hn, if_neg (by tauto), ih]
            simp

/-- A fold that per element either keeps its accumulator or pushes one
element is a filter-map. -/
lemma foldl_push_toList {α β : Type} (F : List β → α → List β) (g : α → Option β)
    (hstep : ∀ acc x, F acc x = acc ++ (g x).toList) :
    ∀ (l : List α) (acc : List β), l.foldl F acc = acc ++ l.filterMap g := by
  intro l
  induction l with
  | nil => intro acc; simp
  | cons x l ih =>
    intro acc
    rw [List.foldl_cons, hstep, ih]
    cases hx : g x <;> simp [hx, Option.toList]

/-- The outer `forEach`/push of `parseNumPlayersPoll` builds exactly the
spec's filter-map over result groups. -/
lemma numPlayers_outer_fold (results : List BggPollResultDto) :
    ∀ acc : List Recommendation,
      results.foldl (fun result item =>
        match item.numplayers with
        | none => result
        | some numplayers =>
          if (item.resultItemList.foldl (fun (acc : PollResult) it =>
                if nullGuard it.numvotes 0 = 0 then acc
                else if it.value = "Best" then
                  { score := acc.score + ((nullGuard it.numvotes 0 : ℕ) : ℚ),
                    votes := acc.votes + nullGuard it.numvotes 0 }
                else if it.value = "Recommended" then
                  { score := acc.score + (1/2 : ℚ) * ((nullGuard it.numvotes 0 : ℕ) : ℚ),
                    votes := acc.votes + nullGuard it.numvotes 0 }
                else if it.value = "Not Recommended" then
                  { score := acc.score - (1/2 : ℚ) * ((nullGuard it.numvotes 0 : ℕ) : ℚ),
                    votes := acc.votes + nullGuard it.numvotes 0 }
                else acc) ⟨0, 0⟩).votes ≠ 0 then
            result ++ [⟨numplayers, max 0 (jsRound
              ((item.resultItemList.foldl (fun (acc : PollResult) it =>
                  if nullGuard it.numvotes 0 = 0 then acc
                  else if it.value = "Best" then
                    { score := acc.score + ((nullGuard it.numvotes 0 : ℕ) : ℚ),
                      votes := acc.votes + nullGuard it.numvotes 0 }
                  else if it.value = "Recommended" then
                    { score := acc.score + (1/2 : ℚ) * ((nullGuard it.numvotes 0 : ℕ) : ℚ),
                      votes := acc.votes + nullGuard it.numvotes 0 }
                  else if it.value = "Not Recommended" then
                    { score := acc.score - (1/2 : ℚ) * ((nullGuard it.numvotes 0 : ℕ) : ℚ),
                      votes := acc.votes + nullGuard it.numvotes 0 }
                  else acc) ⟨0, 0⟩).score /
                ((item.resultItemList.foldl (fun (acc : PollResult) it =>
                  if nullGuard it.numvotes 0 = 0 then acc
                  else if it.value = "Best" then
                    { score := acc.score + ((nullGuard it.numvotes 0 : ℕ) : ℚ),
                      votes := acc.votes + nullGuard it.numvotes 0 }
                  else if it.value = "Recommended" then
                    { score := acc.score + (1/2 : ℚ) * ((nullGuard it.numvotes 0 : ℕ) : ℚ),
                      votes := acc.votes + nullGuard it.numvotes 0 }
                  else if it.value = "Not Recommended" then
                    { score := acc.score - (1/2 : ℚ) * ((nullGuard it.numvotes 0 : ℕ) : ℚ),
                      votes := acc.votes + nullGuard it.numvotes 0 }
                  else acc) ⟨0, 0⟩).votes : ℚ) * 100))⟩]
          else result) acc
      = acc ++ results.filterMap (fun item =>
          match item.numplayers with
          | none => none
          | some bucket =>
            if groupVoteCount item.resultItemList = 0 then none
            else some ⟨bucket,
              max 0 (jsRound (100 * weightedTally item.resultItemList /
                ((groupVoteCount item.resultItemList : ℕ) : ℚ)))⟩) := by
  intro acc
  refine foldl_push_toList _ _ ?_ results acc
  intro res item
  cases hnp : item.numplayers with
  | none => simp [hnp, Option.toList]
  | some np =>
    simp only [hnp, numPlayers_summary, zero_add]
    by_cases hz : groupVoteCount item.resultItemList = 0
    · rw [if_neg (by simpa using hz), if_pos hz]
      simp [Option.toList]
    · rw [if_pos hz, if_neg hz]
      have harg : weightedTally item.resultItemList /
          ((groupVoteCount item.resultItemList : ℕ) : ℚ) * 100 =
          100 * weightedTally item.resultItemList /
            ((groupVoteCount item.resultItemList : ℕ) : ℚ) := by ring
      rw [harg]
      simp [Option.toList]

lemma parseNumPlayers_eq_spec (poll : BggPollDto) :
    parseNumPlayersPoll poll = scorePlayerCountPollSpec poll := by
  rcases hres : poll.results with _ | results
  · simp [parseNumPlayersPoll, scorePlayerCountPollSpec, hres]
  · by_cases hlen : results.length = 0
    · simp [parseNumPlayersPoll, scorePlayerCountPollSpec, hres, hlen]
    · simp only [parseNumPlayersPoll, scorePlayerCountPollSpec, hres]
      rw [if_neg hlen, if_neg hlen, numPlayers_outer_fold]
      simp only [List.nil_append]

/-- C2: `scorePlayerCountPoll` (calculateRecommendedPlayerCountScore via
parseNumPlayersPoll) agrees with the spec's description: per result
group with a present numeric bucket it computes the weighted tally
(Best +1.0, Recommended +0.5, Not Recommended −0.5, votes accumulating
regardless of sign), emits `{value: bucket,
score: round(100 × tally / groupVoteCount) floored at 0}`, omits groups
with zero accumulated votes, and is absent when the poll named
`"suggested_numplayers"` is missing or yields no non-empty groups. -/
theorem claim_C2_scorePlayerCountPoll :
    (∀ polls : Option (List BggPollDto),
      calculateRecommendedPlayerCountScore polls = scorePlayerCountSpec polls) ∧
    ∀ poll : BggPollDto, parseNumPlayersPoll poll = scorePlayerCountPollSpec poll := by
  constructor
  · intro polls
    simp only [calculateRecommendedPlayerCountScore, scorePlayerCountSpec]
    rcases hfind : polls.bind (List.find? fun p => p.name == "suggested_numplayers")
      with _ | poll
    · rfl
    · exact parseNumPlayers_eq_spec poll
  · exact parseNumPlayers_eq_spec

/-- The weighted tally never exceeds the group vote count. -/
lemma weightedTally_le_groupVoteCount (items : List BggPollResultItemDto) :
    weightedTally items ≤ ((groupVoteCount items : ℕ) : ℚ) := by
  induction items with
  | nil => simp [weightedTally, groupVoteCount]
  | cons it items ih =>
    rw [weightedTally_cons, groupVoteCount_cons]
    have hv : (0 : ℚ) ≤ ((nullGuard it.numvotes 0 : ℕ) : ℚ) := by positivity
    by_cases h1 : it.value = "Best"
    · rw [if_pos h1, if_pos (Or.inl h1)]; push_cast; linarith
    · by_cases h2 : it.value = "Recommended"
      · rw [if_neg h1, if_pos h2, if_pos (Or.inr (Or.inl h2))]; push_cast; linarith
      · by_cases h3 : it.value = "Not Recommended"
        · rw [if_neg h1, if_neg h2, if_pos h3, if_pos (Or.inr (Or.inr h3))]
          push_cast; linarith
        · rw [if_neg h1, if_neg h2, if_neg h3, if_neg (by tauto)]
          push_cast; linarith

lemma jsRound_le_100 (q : ℚ) (hq : q ≤ 100) : jsRound q ≤ 100 := by
  have h1 : q + 1/2 ≤ (100 : ℚ) + 1/2 := by linarith
  have h2 : jsRound q ≤ ⌊(100 : ℚ) + 1/2⌋ := Int.floor_le_floor h1
  have h3 : ⌊(100 : ℚ) + 1/2⌋ = 100 := by
    rw [Int.floor_eq_iff]
    norm_num
  omega

/-- C5: every recommendation emitted by `parseNumPlayersPoll` has a
score in the integer interval `[0, 100]` — never negative even when
"Not Recommended" votes dominate, and never above 100. -/
theorem claim_C5_playerCountScore_bounds :
    ∀ (poll : BggPollDto) (recs : List Recommendation) (r : Recommendation),
      parseNumPlayersPoll poll = some recs → r ∈ recs →
      0 ≤ r.score ∧ r.score ≤ 100 := by
  intro poll recs r hparse hmem
  rw [parseNumPlayers_eq_spec] at hparse
  rcases hres : poll.results with _ | results
  · simp [scorePlayerCountPollSpec, hres] at hparse
  · simp only [scorePlayerCountPollSpec, hres] at hparse
    by_cases hlen : results.length = 0
    · rw [if_pos hlen] at hparse; exact absurd hparse (by simp)
    · rw [if_neg hlen] at hparse
      by_cases hfm : (results.filterMap fun item =>
          match item.numplayers with
          | none => none
          | some bucket =>
            if groupVoteCount item.resultItemList = 0 then none
            else some (⟨bucket,
              max 0 (jsRound (100 * weightedTally item.resultItemList /
                ((groupVoteCount item.resultItemList : ℕ) : ℚ)))⟩ :
                  Recommendation)).length = 0
      · rw [if_pos hfm] at hparse; exact absurd hparse (by simp)
      · rw [if_neg hfm] at hparse
        have hrecs := Option.some_inj.mp hparse
        rw [← hrecs] at hmem
        rcases List.mem_filterMap.mp hmem with ⟨item, hitem, hspec⟩
        cases hnp : item.numplayers with
        | none => simp [hnp] at hspec
        | some bucket =>
          simp only [hnp] at hspec
          by_cases hz : groupVoteCount item.resultItemList = 0
          · rw [if_pos hz] at hspec; exact absurd hspec (by simp)
          · rw [if_neg hz] at hspec
            have hr := (Option.some_inj.mp hspec).symm
            have hscore : r.score = max 0 (jsRound (100 * weightedTally item.resultItemList /
                ((groupVoteCount item.resultItemList : ℕ) : ℚ))) := by
              rw [hr]
            rw [hscore]
            refine ⟨le_max_left 0 _, max_le (by norm_num) ?_⟩
            apply jsRound_le_100
            have hgpos : (0 : ℚ) < ((groupVoteCount item.resultItemList : ℕ) : ℚ) := by
              have := Nat.pos_of_ne_zero hz
              exact_mod_cast this
            rw [div_le_iff hgpos]
            have := weightedTally_le_groupVoteCount item.resultItemList
            linarith

/-- A concrete player-count poll in which "Not Recommended" dominates:
one group "2" with 1 Best vote and 3 Not Recommended votes. -/
def c5poll : BggPollDto :=
  ⟨"suggested_numplayers", none,
    some [⟨some "2", [⟨"Best", some 1⟩, ⟨"Not Recommended", some 3⟩]⟩]⟩

/-- Witness for C5: the dominated group is clamped to score 0. -/
theorem claim_C5_witness :
    parseNumPlayersPoll c5poll = some [⟨"2", 0⟩] ∧
    (0 : ℤ) ≤ (⟨"2", (0 : ℤ)⟩ : Recommendation).score ∧
    (⟨"2", (0 : ℤ)⟩ : Recommendation).score ≤ 100 := by
  have hparse : parseNumPlayersPoll c5poll = some [⟨"2", 0⟩] := by
    simp [parseNumPlayersPoll, c5poll, nullGuard]
    rw [jsRound]
    have harg : ((1 : ℚ) - 2⁻¹ * 3) / 4 * 100 + 1/2 = -12 := by norm_num
    rw [harg]
    have hfloor : (⌊(-12 : ℚ)⌋ : ℤ) = -12 := by
      rw [Int.floor_eq_iff]
      norm_num
    rw [hfloor]
    norm_num
  exact ⟨hparse,
    (claim_C5_playerCountScore_bounds c5poll [⟨"2", 0⟩] ⟨"2", 0⟩ hparse (by simp)).1,
    (claim_C5_playerCountScore_bounds c5poll [⟨"2", 0⟩] ⟨"2", 0⟩ hparse (by simp)).2⟩

lemma spliceBatches_nil {α : Type} (bs : ℕ) : spliceBatches bs ([] : List α) = [] := by
  simp [spliceBatches]

lemma spliceBatches_cons {α : Type} (bs : ℕ) (rows : List α) (hne : rows ≠ [])
    (hbs : bs ≠ 0) :
    spliceBatches bs rows = rows.take bs :: spliceBatches bs (rows.drop bs) := by
  rw [spliceBatches]
  rw [if_neg (by simp [hne, hbs])]

/-- The batches cover the input exactly, in order. -/
lemma spliceBatches_flatten {α : Type} (bs : ℕ) (hbs : bs ≠ 0) (rows : List α) :
    (spliceBatches bs rows).flatten = rows := by
  have H : ∀ n (rows : List α), rows.length = n → (spliceBatches bs rows).flatten = rows := by
    intro n
    induction n using Nat.strong_induction_on with
    | _ n ih =>
      intro rows hlen
      by_cases hne : rows = []
      · subst hne; simp [spliceBatches_nil]
      · rw [spliceBatches_cons bs rows hne hbs, List.flatten_cons,
          ih (rows.drop bs).length ?_ (rows.drop bs) rfl, List.take_append_drop]
        have hpos : 0 < rows.length := List.length_pos.mpr hne
        simp only [List.length_drop]
        omega
  exact H rows.length rows rfl

/-- Batch count is the ceiling of queue length over batch size
(in its `ℕ` division form). -/
lemma spliceBatches_length {α : Type} (bs : ℕ) (hbs : bs ≠ 0) (rows : List α) :
    (spliceBatches bs rows).length = (rows.length + bs - 1) / bs := by
  have H : ∀ n (rows : List α), rows.length = n →
      (spliceBatches bs rows).length = (rows.length + bs - 1) / bs := by
    intro n
    induction n using Nat.strong_induction_on with
    | _ n ih =>
      intro rows hlen
      by_cases hne : rows = []
      · subst hne
        rw [spliceBatches_nil]
        simp only [List.length_nil, Nat.zero_add, zero_add]
        exact (Nat.div_eq_of_lt (by omega)).symm
      · have hpos : 0 < rows.length := List.length_pos.mpr hne
        rw [spliceBatches_cons bs rows hne hbs, List.length_cons,
          ih (rows.drop bs).length (by simp only [List.length_drop]; omega)
            (rows.drop bs) rfl]
        simp only [List.length_drop]
        rcases le_or_lt bs rows.length with hle | hlt
        · have h1 : rows.length + bs - 1 = (rows.length - bs + bs - 1) + bs := by omega
          rw [h1, Nat.add_div_right _ (Nat.pos_of_ne_zero hbs)]
        · have h1 : rows.length - bs = 0 := by omega
          rw [h1]
          have h2 : (0 + bs - 1) / bs = 0 := Nat.div_eq_of_lt (by omega)
          have h3 : (rows.length + bs - 1) / bs = 1 :=
            Nat.div_eq_of_lt_le (by omega) (by omega)
          omega
  exact H rows.length rows rfl

/-- Every batch is non-empty and no larger than the batch size. -/
lemma spliceBatches_sizes {α : Type} (bs : ℕ) (hbs : bs ≠ 0) (rows : List α) :
    ∀ b ∈ spliceBatches bs rows, b ≠ [] ∧ b.length ≤ bs := by
  have H : ∀ n (rows : List α), rows.length = n →
      ∀ b ∈ spliceBatches bs rows, b ≠ [] ∧ b.length ≤ bs := by
    intro n
    induction n using Nat.strong_induction_on with
    | _ n ih =>
      intro rows hlen b hb
      by_cases hne : rows = []
      · subst hne; rw [spliceBatches_nil] at hb; exact absurd hb (List.not_mem_nil b)
      · have hpos : 0 < rows.length := List.length_pos.mpr hne
        rw [spliceBatches_cons bs rows hne hbs] at hb
        rcases List.mem_cons.mp hb with rfl | hb
        · constructor
          · apply List.ne_nil_of_length_pos
            simp only [List.length_take]
            omega
          · simp only [List.length_take]
            omega
        · exact ih (rows.drop bs).length (by simp only [List.length_drop]; omega)
            (rows.drop bs) rfl b hb
  exact H rows.length rows rfl

/-- Every batch except possibly the last has exactly the batch size. -/
lemma spliceBatches_dropLast {α : Type} (bs : ℕ) (hbs : bs ≠ 0) (rows : List α) :
    ∀ b ∈ (spliceBatches bs rows).dropLast, b.length = bs := by
  have H : ∀ n (rows : List α), rows.length = n →
      ∀ b ∈ (spliceBatches bs rows).dropLast, b.length = bs := by
    intro n
    induction n using Nat.strong_induction_on with
    | _ n ih =>
      intro rows hlen b hb
      by_cases hne : rows = []
      · subst hne; rw [spliceBatches_nil] at hb; exact absurd hb (List.not_mem_nil b)
      · have hpos : 0 < rows.length := List.length_pos.mpr hne
        rw [spliceBatches_cons bs rows hne hbs] at hb
        by_cases hrest : spliceBatches bs (rows.drop bs) = []
        · rw [hrest] at hb
          simp at hb
        · rw [List.dropLast_cons_of_ne_nil hrest] at hb
          rcases List.mem_cons.mp hb with rfl | hb
          · have hdrop : rows.drop bs ≠ [] := by
              intro hd
              exact hrest (by rw [hd]; exact spliceBatches_nil bs)
            have hlt : bs < rows.length := by
              by_contra hgt
              exact hdrop (List.drop_eq_nil_of_le (by omega))
            simp only [List.length_take]
            omega
          · exact ih (rows.drop bs).length (by simp only [List.length_drop]; omega)
              (rows.drop bs) rfl b hb
  exact H rows.length rows rfl

/-- Ceiling `Math.ceil(len / bs)` agrees with the `ℕ` ceiling division. -/
lemma totalBatchCount_eq (len bs : ℕ) (hbs : bs ≠ 0) :
    totalBatchCount len bs = (((len + bs - 1) / bs : ℕ) : ℤ) := by
  rw [totalBatchCount, Int.ceil_eq_iff]
  have hdm := Nat.div_add_mod (len + bs - 1) bs
  have hmlt : (len + bs - 1) % bs < bs := Nat.mod_lt _ (Nat.pos_of_ne_zero hbs)
  obtain ⟨K, hK⟩ : ∃ K, bs * ((len + bs - 1) / bs) = K := ⟨_, rfl⟩
  rw [hK] at hdm
  have hub : len ≤ K := by omega
  have hlb : K < len + bs := by omega
  have hbpos : (0 : ℚ) < (bs : ℚ) := by
    have := Nat.pos_of_ne_zero hbs
    exact_mod_cast this
  have hprod : (bs : ℚ) * (((len + bs - 1) / bs : ℕ) : ℚ) = (K : ℚ) := by
    have := congrArg (fun n : ℕ => (n : ℚ)) hK
    push_cast at this
    exact this
  have hcast : ((((len + bs - 1) / bs : ℕ) : ℤ) : ℚ) = (((len + bs - 1) / bs : ℕ) : ℚ) := by
    push_cast
    rfl
  rw [hcast]
  have h2 : (K : ℚ) < (len : ℚ) + (bs : ℚ) := by exact_mod_cast hlb
  have h3 : (len : ℚ) ≤ (K : ℚ) := by exact_mod_cast hub
  constructor
  · rw [lt_div_iff hbpos]
    nlinarith [hprod, h2]
  · rw [div_le_iff hbpos]
    nlinarith [hprod, h3]

/-- C6: without a resume skip, the batches are consecutive,
non-overlapping prefixes covering the full input in order, each non-empty
and of size at most `batchSize`, with every batch but the last of size
exactly `batchSize`; `totalBatches = ceil(queueLength / batchSize)` is a
function of the full input length; on a 95-row source with batch size 40
this gives batch sizes `[40, 40, 15]` and `totalBatches = 3`. -/
theorem claim_C6_batching :
    (∀ (α : Type) (bs : ℕ), 0 < bs → ∀ rows : List α,
      (spliceBatches bs rows).flatten = rows ∧
      (∀ b ∈ spliceBatches bs rows, b ≠ [] ∧ b.length ≤ bs) ∧
      (∀ b ∈ (spliceBatches bs rows).dropLast, b.length = bs) ∧
      ((spliceBatches bs rows).length : ℤ) = totalBatchCount rows.length bs) ∧
    (∀ (rows : List SourceRow) (bs st : ℕ), 0 < bs → rows ≠ [] →
      spliceBatches bs rows =
        (initRun rows bs none st).batch :: spliceBatches bs (initRun rows bs none st).queue) ∧
    (spliceBatches 40 (List.range 95)).map List.length = [40, 40, 15] ∧
    totalBatchCount 95 40 = 3 := by
  refine ⟨?_, ?_, ?_, ?_⟩
  · intro α bs hbs rows
    have hbs0 : bs ≠ 0 := Nat.pos_iff_ne_zero.mp hbs
    exact ⟨spliceBatches_flatten bs hbs0 rows,
      spliceBatches_sizes bs hbs0 rows,
      spliceBatches_dropLast bs hbs0 rows,
      by rw [spliceBatches_length bs hbs0 rows, totalBatchCount_eq rows.length bs hbs0]⟩
  · intro rows bs st hbs hne
    have hbatch : (initRun rows bs none st).batch = rows.take bs := rfl
    have hqueue : (initRun rows bs none st).queue = rows.drop bs := rfl
    rw [hbatch, hqueue]
    exact spliceBatches_cons bs rows hne (Nat.pos_iff_ne_zero.mp hbs)
  · have h1 : spliceBatches 40 (List.range 95) =
        (List.range 95).take 40 :: spliceBatches 40 ((List.range 95).drop 40) :=
      spliceBatches_cons 40 _ (by simp [List.range_eq_nil]) (by norm_num)
    have h2 : spliceBatches 40 ((List.range 95).drop 40) =
        ((List.range 95).drop 40).take 40 ::
          spliceBatches 40 (((List.range 95).drop 40).drop 40) :=
      spliceBatches_cons 40 _
        (by apply List.ne_nil_of_length_pos; simp) (by norm_num)
    have h3 : spliceBatches 40 (((List.range 95).drop 40).drop 40) =
        (((List.range 95).drop 40).drop 40).take 40 ::
          spliceBatches 40 ((((List.range 95).drop 40).drop 40).drop 40) :=
      spliceBatches_cons 40 _
        (by apply List.ne_nil_of_length_pos; simp) (by norm_num)
    have h4 : (((List.range 95).drop 40).drop 40).drop 40 = [] := by
      apply List.drop_eq_nil_of_le
      simp
    rw [h1, h2, h3, h4, spliceBatches_nil]
    simp [List.length_take, List.length_drop]
  · rw [totalBatchCount_eq 95 40 (by norm_num)]
    norm_num

/-- Witness for C6 at a concrete instance: batch size 2 over three rows. -/
theorem claim_C6_witness :
    (spliceBatches 2 ([10, 11, 12] : List ℕ)).flatten = [10, 11, 12] :=
  (claim_C6_batching.1 ℕ 2 (by norm_num) [10, 11, 12]).1

/-- C7: the resume skip drops exactly `n × batchSize` rows from the front
of the queue before any batch is taken and sets the batch counter to `n`;
the first batch produced is then the next `batchSize` rows, reported
(1-based) as batch index `n + 1`; with `skip(1)` and batch size 40 on a
95-row source the first batch starts at row 41 (0-based id 40) and is
reported as batch index 2. -/
theorem claim_C7_skip :
    (∀ (rows : List SourceRow) (bs n st : ℕ),
      (initRun rows bs (some n) st).batch ++ (initRun rows bs (some n) st).queue =
        rows.drop (n * bs) ∧
      (initRun rows bs (some n) st).batch = (rows.drop (n * bs)).take bs ∧
      (initRun rows bs (some n) st).currentBatchCount = n + 1 ∧
      (initRun rows bs (some n) st).stats.startingBatch = n + 1) ∧
    ((initRun ((List.range 95).map SourceRow.mk) 40 (some 1) 0).batch.head? =
      some ⟨40⟩ ∧
     (initRun ((List.range 95).map SourceRow.mk) 40 (some 1) 0).currentBatchCount = 2) := by
  refine ⟨?_, ?_, ?_⟩
  · intro rows bs n st
    exact ⟨List.take_append_drop bs (rows.drop (n * bs)), rfl, rfl, rfl⟩
  · rfl
  · rfl

/-- C8: `parseGame` is a total function (its Lean type `BggThingDto → Game`
carries no error case, and this theorem exhibits its defaults): a missing
tag-link list yields empty `categories` and `mechanics`, and missing polls
make the optional suggested scalars and poll results absent rather than
failing. -/
theorem claim_C8_parseGame_total :
    ∀ (d5 d4 : String → String) (thing : BggThingDto),
      (thing.links = none →
        (parseGame d5 d4 thing).categories = [] ∧
        (parseGame d5 d4 thing).mechanics = []) ∧
      (thing.polls = none →
        (parseGame d5 d4 thing).playerCount.suggested = none ∧
        (parseGame d5 d4 thing).age.suggested = none ∧
        (parseGame d5 d4 thing).playerCount.pollResults = none ∧
        (parseGame d5 d4 thing).age.pollResults = none) := by
  intro d5 d4 thing
  constructor
  · intro h
    constructor <;> simp [parseGame, h]
  · intro h
    refine ⟨?_, ?_, ?_, ?_⟩ <;>
      simp [parseGame, h, calculateRecommendedPlayerCountScore,
        calculateRecommendedAgeScore, getTopRecommendation]

/-- A raw item with no links and no polls. -/
def c8thing : BggThingDto :=
  { id := 7, thumbnail := "t", image := "i", name := "n", description := ""
    yearpublished := 2000, minage := 8, minplayers := 2, maxplayers := 4
    playingtime := 30, minplaytime := 20, maxplaytime := 40
    statistics := ⟨⟨0, 0, 0, none⟩⟩, links := none, polls := none }

/-- Witness for C8: the defaults at a concrete link-less, poll-less item. -/
theorem claim_C8_witness :
    (parseGame id id c8thing).categories = [] ∧
    (parseGame id id c8thing).playerCount.suggested = none :=
  ⟨((claim_C8_parseGame_total id id c8thing).1 rfl).1,
   ((claim_C8_parseGame_total id id c8thing).2 rfl).1⟩

lemma runningAverage_fold (ds : List ℚ) :
    ∀ (avg : ℚ) (n : ℕ), 0 < n + ds.length →
      ds.foldl (fun acc d => (updateAverage acc.1 (acc.2 + 1) d, acc.2 + 1)) (avg, n) =
        ((avg * (n : ℚ) + ds.sum) / ((n : ℚ) + (ds.length : ℚ)), n + ds.length) := by
  induction ds with
  | nil =>
    intro avg n hn
    simp only [List.foldl_nil, List.sum_nil, List.length_nil, Nat.add_zero, add_zero]
    have hne : ((n : ℚ)) ≠ 0 := by
      have : 0 < n := by simpa using hn
      positivity
    rw [Prod.ext_iff]
    constructor
    · simp only
      field_simp
    · rfl
  | cons d ds ih =>
    intro avg n hn
    rw [List.foldl_cons]
    have hrec := ih (updateAverage avg (n + 1) d) (n + 1) (by omega)
    simp only at hrec
    rw [hrec]
    have hup : updateAverage avg (n + 1) d = (avg * (n : ℚ) + d) / ((n : ℚ) + 1) := by
      rw [updateAverage]
      push_cast
      ring_nf
    rw [hup, Prod.ext_iff]
    constructor
    · simp only
      have hne : ((n : ℚ) + 1) ≠ 0 := by positivity
      field_simp
      push_cast
      ring
    · simp only [List.length_cons]
      omega

/-- C9: on every successful batch the processed count is incremented and
the running average is updated by exactly
`avg' = (avg × (n−1) + duration) / n` with `n` the new count; folding
that recurrence over `n` durations yields their arithmetic mean
(numbers modelled as exact rationals). -/
theorem claim_C9_runningAverage :
    (∀ (d5 d4 : String → String) (s : IngestState) (things : List BggThingDto) (d : ℚ),
      (loopStep d5 d4 s (.returned (some things)) d).stats.batchesProcessed =
        s.stats.batchesProcessed + 1 ∧
      (loopStep d5 d4 s (.returned (some things)) d).stats.averageTimePerBatch =
        updateAverage s.stats.averageTimePerBatch (s.stats.batchesProcessed + 1) d) ∧
    ∀ durations : List ℚ, durations ≠ [] →
      (runningAverage durations).1 = durations.sum / (durations.length : ℚ) ∧
      (runningAverage durations).2 = durations.length := by
  constructor
  · intro d5 d4 s things d
    exact ⟨rfl, rfl⟩
  · intro ds hne
    have hlen : 0 < ds.length := List.length_pos.mpr hne
    have h := runningAverage_fold ds 0 0 (by omega)
    rw [runningAverage, h]
    constructor
    · simp
    · simp

/-- Witness for C9: the mean of two concrete durations. -/
theorem claim_C9_witness :
    (runningAverage [4, 6]).1 = 5 ∧ (runningAverage [4, 6]).2 = 2 := by
  have h := claim_C9_runningAverage.2 [4, 6] (by simp)
  rcases h with ⟨h1, h2⟩
  constructor
  · rw [h1]
    norm_num
  · rw [h2]
    rfl

/-- The loop state used to refute the original C1 wording: one-row batch
`[⟨1⟩]` with one row `[⟨2⟩]` still queued. -/
def c1state : IngestState :=
  { queue := [⟨2⟩], batch := [⟨1⟩], currentBatchCount := 1, client := 0,
    stats := { start := 0, endTime := none, batchSize := 1, availableBatches := 2,
               startingBatch := 1, batchesProcessed := 0, errors := [],
               averageTimePerBatch := 0 }, outputs := [] }

/-- C1 counterexample: on an empty fetch result — a failure by the
claim's own definition — the loop does NOT retry the same batch and does
NOT recreate the client: the batch advances to the next queue prefix and
the client generation is unchanged. -/
theorem claim_C1_counterexample :
    (loopStep id id c1state (.returned (some [])) 0).batch ≠ c1state.batch ∧
    (loopStep id id c1state (.returned (some [])) 0).client = c1state.client := by
  constructor
  · intro h
    have h1 : (loopStep id id c1state (.returned (some [])) 0).batch = [⟨2⟩] := rfl
    rw [h1] at h
    have h2 : c1state.batch = [⟨1⟩] := rfl
    rw [h2] at h
    simp at h
  · rfl

/-- C1 (amended): only a *raised* transport error triggers
record-error / recreate-client / retry-same-batch; an empty or absent
result set is recorded as an error but the batch is *advanced past*:
an empty output artifact is written for it, it counts as processed, and
the client is kept.  In both cases the step is total (never fatal). -/
theorem claim_C1_fetch_failure :
    (∀ (d5 d4 : String → String) (s : IngestState) (e : String) (d : ℚ),
      (loopStep d5 d4 s (.raised e) d).batch = s.batch ∧
      (loopStep d5 d4 s (.raised e) d).queue = s.queue ∧
      (loopStep d5 d4 s (.raised e) d).client = s.client + 1 ∧
      (loopStep d5 d4 s (.raised e) d).stats.errors =
        s.stats.errors ++ [⟨s.batch.map (fun row => row.id),
          "Error fetching batch, recreating client and retrying after 5sec..."⟩] ∧
      (loopStep d5 d4 s (.raised e) d).stats.batchesProcessed =
        s.stats.batchesProcessed ∧
      (loopStep d5 d4 s (.raised e) d).outputs = s.outputs ∧
      (loopStep d5 d4 s (.raised e) d).currentBatchCount = s.currentBatchCount) ∧
    ∀ (d5 d4 : String → String) (s : IngestState) (d : ℚ),
      ((loopStep d5 d4 s (.returned none) d).stats.errors =
        s.stats.errors ++
          [⟨s.batch.map (fun row => row.id), "No data returned from BGG API"⟩] ∧
       (loopStep d5 d4 s (.returned (some [])) d).stats.errors =
        s.stats.errors ++
          [⟨s.batch.map (fun row => row.id), "No data returned from BGG API"⟩]) ∧
      (loopStep d5 d4 s (.returned (some [])) d).batch =
        s.queue.take s.stats.batchSize ∧
      (loopStep d5 d4 s (.returned (some [])) d).queue =
        s.queue.drop s.stats.batchSize ∧
      (loopStep d5 d4 s (.returned (some [])) d).outputs =
        s.outputs ++ [(s.currentBatchCount, [])] ∧
      (loopStep d5 d4 s (.returned (some [])) d).client = s.client ∧
      (loopStep d5 d4 s (.returned (some [])) d).currentBatchCount =
        s.currentBatchCount + 1 ∧
      (loopStep d5 d4 s (.returned (some [])) d).stats.batchesProcessed =
        s.stats.batchesProcessed + 1 := by
  constructor
  · intro d5 d4 s e d
    exact ⟨rfl, rfl, rfl, rfl, rfl, rfl, rfl⟩
  · intro d5 d4 s d
    exact ⟨⟨rfl, rfl⟩, rfl, rfl, rfl, rfl, rfl, rfl⟩

end BggScraper
